import Mathlib

/-!
# Verification of the Deepgram voice-agent relay (`main.py`)

A shallow embedding of the session relay/recording engine of `main.py`:
the WAV header encoder (`create_wav_header`), the JSON serialization used
for the transcript file (`json.dumps` / `json.loads` on the flat
string-valued objects the relay writes), the per-session termination flag
(`threading.Event`), the Deepgram agent thread (`deepgram_agent_thread`),
and the client-facing relay loop (`websocket_call`, lines 111-138).

Machine integers do not occur (Python integers are unbounded); bytes are
modelled as `Nat` values `< 256` produced by the faithful `to_bytes`
translation, which fails (returns `none`) exactly when Python raises
`OverflowError`.  File writes may fail: the relay model takes a failure
schedule `fail : Nat → Bool` giving, for each filesystem write operation
in program order, whether it raises `OSError`.  The happy path is the
schedule that is constantly `false`.
-/

namespace DeepgramRelay

/-! ## List helpers -/

/-- Concatenation of the images of `f`, in order (`flatMap`). -/
def cmap (f : α → List β) : List α → List β
  | [] => []
  | x :: xs => f x ++ cmap f xs

@[simp] theorem cmap_nil (f : α → List β) : cmap f [] = [] := rfl

@[simp] theorem cmap_cons (f : α → List β) (x : α) (xs : List α) :
    cmap f (x :: xs) = f x ++ cmap f xs := rfl

theorem cmap_append (f : α → List β) (l₁ l₂ : List α) :
    cmap f (l₁ ++ l₂) = cmap f l₁ ++ cmap f l₂ := by
  induction l₁ with
  | nil => rfl
  | cons x xs ih => simp [ih]

/-! ## WAV encoder (`create_wav_header`, main.py lines 41-58)

Python's `int.to_bytes(length, 'little')` raises `OverflowError` when the
value does not fit in `length` bytes; `toBytes?` returns `none` there.
`bytearray(44)` is 44 zero bytes, and each slice assignment
`header[a:b] = v` with `b - a = len(v)` replaces exactly that range
(`setSlice`).  The thirteen assignments cover `[0,44)` contiguously. -/

/-- Little-endian base-256 digits of `v`, exactly `w` bytes. -/
def leBytes : Nat → Nat → List Nat
  | _, 0 => []
  | v, w + 1 => v % 256 :: leBytes (v / 256) w

@[simp] theorem leBytes_length (v w : Nat) : (leBytes v w).length = w := by
  induction w generalizing v with
  | zero => rfl
  | succ w ih => simp [leBytes, ih]

/-- `value.to_bytes(length, 'little')`: `none` models Python's
`OverflowError` when `value ≥ 256 ^ length`. -/
def toBytes? (value length : Nat) : Option (List Nat) :=
  if value < 256 ^ length then some (leBytes value length) else none

/-- Python `bytearray` slice assignment `l[start : start+repl.length] = repl`
(for in-range, equal-length slices). -/
def setSlice (l : List Nat) (start : Nat) (repl : List Nat) : List Nat :=
  l.take start ++ repl ++ l.drop (start + repl.length)

theorem setSlice_length (l repl : List Nat) (start : Nat)
    (h : start + repl.length ≤ l.length) :
    (setSlice l start repl).length = l.length := by
  simp [setSlice]
  omega

theorem setSlice_take (l repl : List Nat) (start k : Nat) (hk : k ≤ start)
    (hs : start ≤ l.length) :
    (setSlice l start repl).take k = l.take k := by
  simp only [setSlice, List.take_append_eq_append_take, List.length_take]
  have h1 : min start l.length = start := by omega
  have h2 : k - min k (min start l.length) = 0 := by omega
  simp only [h1, h2, List.take_zero, List.append_nil, List.take_take]
  rw [Nat.min_eq_left hk]
  have h3 : k - start = 0 := by omega
  have h4 : k - (List.take start l ++ repl).length = 0 := by
    simp [List.length_take]
    omega
  simp [h3, h4]
  left
  omega

theorem setSlice_drop (l repl : List Nat) (start : Nat)
    (h : start ≤ l.length) :
    (setSlice l start repl).drop start = repl ++ l.drop (start + repl.length) := by
  simp only [setSlice, List.drop_append_eq_append_drop, List.length_take]
  have h1 : min start l.length = start := by omega
  simp [h1, List.drop_take]

/-- `create_wav_header(sample_rate, bits_per_sample, channels)`
(main.py lines 41-58), translated statement by statement; `none` iff one
of the `to_bytes` calls raises `OverflowError`. -/
def create_wav_header (sample_rate : Nat := 24000) (bits_per_sample : Nat := 16)
    (channels : Nat := 1) : Option (List Nat) := do
  let byte_rate := sample_rate * channels * (bits_per_sample / 8)
  let block_align := channels * (bits_per_sample / 8)
  let header := List.replicate 44 0
  let header := setSlice header 0 [0x52, 0x49, 0x46, 0x46]       -- bytes of RIFF
  let b ← toBytes? 36 4
  let header := setSlice header 4 b
  let header := setSlice header 8 [0x57, 0x41, 0x56, 0x45]       -- bytes of WAVE
  let header := setSlice header 12 [0x66, 0x6d, 0x74, 0x20]      -- bytes of fmt and a space
  let b ← toBytes? 16 4
  let header := setSlice header 16 b
  let b ← toBytes? 1 2
  let header := setSlice header 20 b
  let b ← toBytes? channels 2
  let header := setSlice header 22 b
  let b ← toBytes? sample_rate 4
  let header := setSlice header 24 b
  let b ← toBytes? byte_rate 4
  let header := setSlice header 28 b
  let b ← toBytes? block_align 2
  let header := setSlice header 32 b
  let b ← toBytes? bits_per_sample 2
  let header := setSlice header 34 b
  let header := setSlice header 36 [0x64, 0x61, 0x74, 0x61]      -- bytes of data
  let b ← toBytes? 0 4
  let header := setSlice header 40 b
  return header

/-- The header the relay actually writes: `create_wav_header()` at its
default parameters (24000 Hz, 16 bits, mono); this call always succeeds. -/
def wavHeaderBytes : List Nat := (create_wav_header 24000 16 1).getD []

/-! ## JSON serialization of transcript events

The relay writes each transcript line as `json.dumps(transcript) + "\n"`
(main.py line 134), where `transcript` is `conversation_text.__dict__`: a
flat dict with string keys and string values (role/type discriminator and
text content).  We model such a dict as an association list
`List (String × String)` (Python dicts preserve insertion order, which is
what `json.dumps` serializes).

`json_dumps` is CPython's `json.dumps` at its defaults for this shape:
item separator `", "`, key separator `": "`, `ensure_ascii=True`
(characters outside `0x20..0x7e` are `\uXXXX`-escaped, astral characters
as a surrogate pair).  `json_loads` is `json.loads` restricted to the
sublanguage `json_dumps` emits (flat string-valued object); like Python's
strict mode it rejects raw control characters inside strings.  Lone
surrogate escapes (which `json_dumps` never emits for valid Unicode
input) are rejected rather than decoded, since a Lean `Char` cannot hold
a lone surrogate. -/

/-- Lowercase hexadecimal digit character for `d < 16`. -/
def hexDigitChar (d : Nat) : Char :=
  if d < 10 then Char.ofNat (48 + d) else Char.ofNat (87 + d)

/-- Four lowercase hex digits of `n < 0x10000`, most significant first. -/
def toHex4 (n : Nat) : List Char :=
  [hexDigitChar (n / 4096 % 16), hexDigitChar (n / 256 % 16),
   hexDigitChar (n / 16 % 16), hexDigitChar (n % 16)]

/-- `ensure_ascii` escaping of one character, as in CPython's
`json.encoder.py_encode_basestring_ascii`. -/
def jsonEscapeChar (c : Char) : List Char :=
  if c = '"' then ['\\', '"']
  else if c = '\\' then ['\\', '\\']
  else if c = '\n' then ['\\', 'n']
  else if c = '\r' then ['\\', 'r']
  else if c = '\t' then ['\\', 't']
  else if c.toNat = 8 then ['\\', 'b']
  else if c.toNat = 12 then ['\\', 'f']
  else if 0x20 ≤ c.toNat ∧ c.toNat ≤ 0x7e then [c]
  else if c.toNat < 0x10000 then '\\' :: 'u' :: toHex4 c.toNat
  else
    ('\\' :: 'u' :: toHex4 (0xd800 + (c.toNat - 0x10000) / 0x400)) ++
    ('\\' :: 'u' :: toHex4 (0xdc00 + (c.toNat - 0x10000) % 0x400))

/-- Escaped body of a JSON string literal. -/
def escapeChars (s : List Char) : List Char := cmap jsonEscapeChar s

/-- A JSON string literal: quote, escaped body, quote. -/
def jsonQuoteChars (s : List Char) : List Char := '"' :: (escapeChars s ++ ['"'])

/-- One `"key": "value"` pair, with `json.dumps`'s default `": "` separator. -/
def renderPairChars (kv : List Char × List Char) : List Char :=
  jsonQuoteChars kv.1 ++ ':' :: ' ' :: jsonQuoteChars kv.2

/-- The pairs of an object joined by the default `", "` item separator. -/
def renderPairsChars : List (List Char × List Char) → List Char
  | [] => []
  | [kv] => renderPairChars kv
  | kv :: rest => renderPairChars kv ++ ',' :: ' ' :: renderPairsChars rest

/-- Character-level `json.dumps` of a flat string-valued object. -/
def jsonDumpsChars (obj : List (List Char × List Char)) : List Char :=
  '{' :: (renderPairsChars obj ++ ['}'])

/-- `json.dumps(obj)` for a dict with string keys and string values,
at the defaults used on main.py line 134. -/
def json_dumps (obj : List (String × String)) : String :=
  String.mk (jsonDumpsChars (obj.map (fun kv => (kv.1.data, kv.2.data))))

/-- Value of a hexadecimal digit character (`json.loads` accepts both
cases). -/
def parseHexDigit (c : Char) : Option Nat :=
  if 48 ≤ c.toNat ∧ c.toNat ≤ 57 then some (c.toNat - 48)
  else if 97 ≤ c.toNat ∧ c.toNat ≤ 102 then some (c.toNat - 87)
  else if 65 ≤ c.toNat ∧ c.toNat ≤ 70 then some (c.toNat - 55)
  else none

/-- Value of four hex digit characters, most significant first. -/
def parseHex4 (a b c d : Char) : Option Nat := do
  let x ← parseHexDigit a
  let y ← parseHexDigit b
  let z ← parseHexDigit c
  let w ← parseHexDigit d
  return ((x * 16 + y) * 16 + z) * 16 + w

/-- Decoded value of a single-character escape `\e`. -/
def escapeCharValue (e : Char) : Option Char :=
  if e = '"' then some '"'
  else if e = '\\' then some '\\'
  else if e = '/' then some '/'
  else if e = 'b' then some (Char.ofNat 8)
  else if e = 'f' then some (Char.ofNat 12)
  else if e = 'n' then some '\n'
  else if e = 'r' then some '\r'
  else if e = 't' then some '\t'
  else none

/-- Result of scanning one unit of a JSON string body: either the closing
quote (`close`) or one decoded character (`chr`), with the remaining
input. -/
inductive ScanTok where
  | close (rest : List Char)
  | chr (c : Char) (rest : List Char)

/-- One scanning step of a JSON string body, as in CPython's `json`
string scanning: a closing quote ends the string; a `\uD800..\uDBFF`
escape must be followed by a low-surrogate escape (the pair is combined
into one character); raw control characters are rejected (strict mode). -/
def scanTok : List Char → Option ScanTok
  | [] => none
  | c :: rest =>
    if c = '"' then some (.close rest)
    else if c = '\\' then
      match rest with
      | [] => none
      | e :: rest2 =>
        if e = 'u' then
          match rest2 with
          | a :: b :: c2 :: d :: rest3 =>
            match parseHex4 a b c2 d with
            | none => none
            | some n =>
              if 0xd800 ≤ n ∧ n < 0xdc00 then
                match rest3 with
                | s1 :: s2 :: a2 :: b2 :: c3 :: d2 :: rest4 =>
                  if s1 = '\\' ∧ s2 = 'u' then
                    match parseHex4 a2 b2 c3 d2 with
                    | none => none
                    | some m =>
                      if 0xdc00 ≤ m ∧ m < 0xe000 then
                        some (.chr (Char.ofNat (0x10000 + (n - 0xd800) * 0x400 + (m - 0xdc00)))
                          rest4)
                      else none
                  else none
                | _ => none
              else if 0xdc00 ≤ n ∧ n < 0xe000 then none
              else some (.chr (Char.ofNat n) rest3)
          | _ => none
        else
          match escapeCharValue e with
          | none => none
          | some c2 => some (.chr c2 rest2)
    else if c.toNat < 0x20 then none
    else some (.chr c rest)

/-- Body of a JSON string literal after the opening quote: iterated
`scanTok`, returning the decoded characters and the input remaining after
the closing quote.  `fuel` bounds the iteration; each step consumes at
least one input character, so `cs.length` fuel is always enough. -/
def parseStringBodyFuel : Nat → List Char → Option (List Char × List Char)
  | 0, _ => none
  | fuel + 1, cs =>
    match scanTok cs with
    | none => none
    | some (.close rest) => some ([], rest)
    | some (.chr c rest) => (parseStringBodyFuel fuel rest).map (fun p => (c :: p.1, p.2))

/-- Body of a JSON string literal after the opening quote. -/
def parseStringBody (cs : List Char) : Option (List Char × List Char) :=
  parseStringBodyFuel cs.length cs

/-- What follows one `"k": "v"` pair: the closing brace (`done`) or the
`", "` separator before a further pair (`more`). -/
inductive PairNext where
  | done (rest : List Char)
  | more (rest : List Char)

/-- Parse one `"k": "v"` pair (with `json.dumps`'s `": "` key separator)
followed by either the closing brace or the `", "` item separator. -/
def scanPair (cs : List Char) : Option ((List Char × List Char) × PairNext) :=
  match cs with
  | q :: cs1 =>
    if q = '"' then
      match parseStringBody cs1 with
      | none => none
      | some (k, cs2) =>
        match cs2 with
        | x1 :: x2 :: x3 :: cs3 =>
          if x1 = ':' ∧ x2 = ' ' ∧ x3 = '"' then
            match parseStringBody cs3 with
            | none => none
            | some (v, cs4) =>
              match cs4 with
              | y :: cs5 =>
                if y = '}' then some ((k, v), .done cs5)
                else
                  match cs5 with
                  | z :: cs6 =>
                    if y = ',' ∧ z = ' ' then some ((k, v), .more cs6)
                    else none
                  | _ => none
              | _ => none
          else none
        | _ => none
    else none
  | _ => none

/-- After the opening brace of a non-empty object: `"k": "v"` pairs joined
by `", "` up to the closing brace.  `fuel` bounds the recursion depth (one
unit per pair). -/
def parsePairList : Nat → List Char → Option (List (List Char × List Char) × List Char)
  | 0, _ => none
  | fuel + 1, cs =>
    match scanPair cs with
    | none => none
    | some (kv, .done rest) => some ([kv], rest)
    | some (kv, .more cs6) => (parsePairList fuel cs6).map (fun p => (kv :: p.1, p.2))

/-- Character-level `json.loads` for the sublanguage `jsonDumpsChars`
emits: a single flat string-valued object spanning the whole input. -/
def jsonLoadsChars (cs : List Char) : Option (List (List Char × List Char)) :=
  match cs with
  | b :: rest =>
    if b = '{' then
      if rest = ['}'] then some []
      else
        match parsePairList rest.length rest with
        | some (ps, []) => some ps
        | _ => none
    else none
  | _ => none

/-- `json.loads` on one transcript line (restricted to the shape
`json_dumps` produces). -/
def json_loads (s : String) : Option (List (String × String)) :=
  (jsonLoadsChars s.data).map
    (fun ps => ps.map (fun kv => (String.mk kv.1, String.mk kv.2)))

/-! ### Round-trip of the JSON model -/

theorem char_not_surrogate (c : Char) : ¬ (0xd800 ≤ c.toNat ∧ c.toNat < 0xe000) := by
  have hv := c.valid
  rw [UInt32.isValidChar, Nat.isValidChar] at hv
  have h2 : c.toNat = c.val.toNat := rfl
  omega

theorem char_toNat_lt (c : Char) : c.toNat < 0x110000 := by
  have hv := c.valid
  rw [UInt32.isValidChar, Nat.isValidChar] at hv
  have h2 : c.toNat = c.val.toNat := rfl
  omega

theorem charOfNat_toNat (n : Nat) (h : Nat.isValidChar n) : (Char.ofNat n).toNat = n := by
  rw [Char.ofNat, dif_pos h]
  simp [Char.ofNatAux, Char.toNat, UInt32.toNat, UInt32.ofNatCore]

theorem parseHexDigit_hexDigitChar (d : Nat) (h : d < 16) :
    parseHexDigit (hexDigitChar d) = some d := by
  interval_cases d <;> decide

theorem parseHex4_toHex4 (n : Nat) (h : n < 0x10000) :
    parseHex4 (hexDigitChar (n / 4096 % 16)) (hexDigitChar (n / 256 % 16))
      (hexDigitChar (n / 16 % 16)) (hexDigitChar (n % 16)) = some n := by
  rw [parseHex4]
  rw [parseHexDigit_hexDigitChar _ (Nat.mod_lt _ (by omega)),
      parseHexDigit_hexDigitChar _ (Nat.mod_lt _ (by omega)),
      parseHexDigit_hexDigitChar _ (Nat.mod_lt _ (by omega)),
      parseHexDigit_hexDigitChar _ (Nat.mod_lt _ (by omega))]
  show some (((n / 4096 % 16 * 16 + n / 256 % 16) * 16 + n / 16 % 16) * 16 + n % 16) = some n
  congr 1
  omega

/-- Scanning the escape of `c` yields exactly `c` and consumes exactly the
escape. -/
theorem scanTok_escape (c : Char) (rest : List Char) :
    scanTok (jsonEscapeChar c ++ rest) = some (.chr c rest) := by
  rw [jsonEscapeChar]
  split_ifs with h1 h2 h3 h4 h5 h6 h7 h8 h9
  · subst h1; rfl
  · subst h2; rfl
  · subst h3; rfl
  · subst h4; rfl
  · subst h5; rfl
  · have hc : Char.ofNat 8 = c := by rw [← h6, Char.ofNat_toNat]
    show scanTok ('\\' :: 'b' :: rest) = _
    rw [show scanTok ('\\' :: 'b' :: rest) = some (.chr (Char.ofNat 8) rest) from rfl, hc]
  · have hc : Char.ofNat 12 = c := by rw [← h7, Char.ofNat_toNat]
    show scanTok ('\\' :: 'f' :: rest) = _
    rw [show scanTok ('\\' :: 'f' :: rest) = some (.chr (Char.ofNat 12) rest) from rfl, hc]
  · show scanTok (c :: rest) = _
    rw [scanTok.eq_def]
    try simp only []
    rw [if_neg h1, if_neg h2, if_neg (by omega : ¬ c.toNat < 0x20)]
  · -- BMP character escaped as a single \uXXXX group
    have hs := char_not_surrogate c
    simp only [toHex4, List.cons_append, List.nil_append]
    rw [scanTok]
    rw [if_neg (by decide : ¬ ('\\' : Char) = '"'), if_pos rfl]
    try simp only []
    rw [if_pos trivial]
    try simp only []
    rw [parseHex4_toHex4 _ h9]
    try simp only []
    rw [if_neg (by omega : ¬ (0xd800 ≤ c.toNat ∧ c.toNat < 0xdc00)),
        if_neg (by omega : ¬ (0xdc00 ≤ c.toNat ∧ c.toNat < 0xe000))]
    rw [Char.ofNat_toNat]
  · -- astral character escaped as a surrogate pair
    have hlt := char_toNat_lt c
    simp only [toHex4, List.cons_append, List.nil_append]
    rw [scanTok]
    rw [if_neg (by decide : ¬ ('\\' : Char) = '"'), if_pos rfl]
    try simp only []
    rw [if_pos trivial]
    try simp only []
    rw [parseHex4_toHex4 _ (by omega)]
    try simp only []
    rw [if_pos (by omega : 0xd800 ≤ 0xd800 + (c.toNat - 0x10000) / 0x400 ∧
          0xd800 + (c.toNat - 0x10000) / 0x400 < 0xdc00)]
    try simp only []
    rw [if_pos (⟨trivial, trivial⟩ : True ∧ True)]
    rw [parseHex4_toHex4 _ (by omega)]
    try simp only []
    rw [if_pos (by omega : 0xdc00 ≤ 0xdc00 + (c.toNat - 0x10000) % 0x400 ∧
          0xdc00 + (c.toNat - 0x10000) % 0x400 < 0xe000)]
    have harith : 0x10000 + (0xd800 + (c.toNat - 0x10000) / 0x400 - 0xd800) * 0x400 +
        (0xdc00 + (c.toNat - 0x10000) % 0x400 - 0xdc00) = c.toNat := by omega
    rw [harith, Char.ofNat_toNat]

/-- Each character escape is at least one character long. -/
theorem escapeChars_length_ge (s : List Char) : s.length ≤ (escapeChars s).length := by
  induction s with
  | nil => simp [escapeChars]
  | cons c cs ih =>
    have h1 : 1 ≤ (jsonEscapeChar c).length := by
      rw [jsonEscapeChar]
      split_ifs <;> simp [toHex4]
    simp only [escapeChars, cmap_cons, List.length_append, List.length_cons] at *
    omega

theorem parseStringBodyFuel_escape (s rest : List Char) (fuel : Nat)
    (hf : s.length < fuel) :
    parseStringBodyFuel fuel (escapeChars s ++ '"' :: rest) = some (s, rest) := by
  induction s generalizing fuel with
  | nil =>
    match fuel, hf with
    | f + 1, _ =>
      rw [show escapeChars [] ++ '"' :: rest = '"' :: rest from rfl, parseStringBodyFuel]
      rfl
  | cons c cs ih =>
    match fuel, hf with
    | f + 1, hf =>
      rw [show escapeChars (c :: cs) = jsonEscapeChar c ++ escapeChars cs from rfl,
          List.append_assoc, parseStringBodyFuel, scanTok_escape]
      try simp only []
      rw [ih f (by simpa using hf)]
      rfl

theorem parseStringBody_escape (s rest : List Char) :
    parseStringBody (escapeChars s ++ '"' :: rest) = some (s, rest) := by
  apply parseStringBodyFuel_escape
  have := escapeChars_length_ge s
  simp only [List.length_append, List.length_cons]
  omega

theorem scanPair_render_done (kv : List Char × List Char) (rest : List Char) :
    scanPair (renderPairChars kv ++ '}' :: rest) = some (kv, .done rest) := by
  simp only [renderPairChars, jsonQuoteChars, List.append_assoc, List.cons_append,
    List.singleton_append, List.nil_append]
  rw [scanPair]
  try simp only []
  rw [if_pos trivial, parseStringBody_escape]
  try simp only []
  rw [if_pos (⟨trivial, trivial, trivial⟩ : True ∧ True ∧ True)]
  rw [parseStringBody_escape]
  simp

theorem scanPair_render_more (kv : List Char × List Char) (rest : List Char) :
    scanPair (renderPairChars kv ++ ',' :: ' ' :: rest) = some (kv, .more rest) := by
  simp only [renderPairChars, jsonQuoteChars, List.append_assoc, List.cons_append,
    List.singleton_append, List.nil_append]
  rw [scanPair]
  try simp only []
  rw [if_pos trivial, parseStringBody_escape]
  try simp only []
  rw [if_pos (⟨trivial, trivial, trivial⟩ : True ∧ True ∧ True)]
  rw [parseStringBody_escape]
  simp

theorem parsePairList_render :
    ∀ (ps : List (List Char × List Char)) (rest : List Char) (fuel : Nat),
      ps ≠ [] → ps.length ≤ fuel →
      parsePairList fuel (renderPairsChars ps ++ '}' :: rest) = some (ps, rest)
  | [], _, _, hne, _ => absurd rfl hne
  | [_], _, 0, _, hf => by simp at hf
  | _ :: _ :: _, _, 0, _, hf => by simp at hf
  | [kv], rest, f + 1, _, _ => by
    rw [show renderPairsChars [kv] = renderPairChars kv from rfl, parsePairList,
        scanPair_render_done]
  | kv :: p :: ps', rest, f + 1, _, hf => by
    rw [show renderPairsChars (kv :: p :: ps') =
          renderPairChars kv ++ ',' :: ' ' :: renderPairsChars (p :: ps') from rfl,
        List.append_assoc]
    rw [parsePairList]
    rw [show renderPairChars kv ++ (',' :: ' ' :: renderPairsChars (p :: ps') ++ '}' :: rest)
          = renderPairChars kv ++ ',' :: ' ' :: (renderPairsChars (p :: ps') ++ '}' :: rest)
        from by simp]
    rw [scanPair_render_more]
    try simp only []
    rw [parsePairList_render (p :: ps') rest f (by simp) (by simpa using hf)]
    rfl

/-- A rendered non-empty pair list starts with a quote character. -/
theorem renderPairsChars_cons_head (kv : List Char × List Char)
    (ps : List (List Char × List Char)) :
    ∃ t, renderPairsChars (kv :: ps) = '"' :: t := by
  cases ps with
  | nil => exact ⟨_, rfl⟩
  | cons p ps' => exact ⟨_, rfl⟩

theorem length_le_renderPairsChars (ps : List (List Char × List Char)) :
    ps.length ≤ (renderPairsChars ps).length := by
  induction ps with
  | nil => simp [renderPairsChars]
  | cons kv ps ih =>
    cases ps with
    | nil => simp [renderPairsChars, renderPairChars, jsonQuoteChars]
    | cons p ps' =>
      rw [show renderPairsChars (kv :: p :: ps') =
            renderPairChars kv ++ ',' :: ' ' :: renderPairsChars (p :: ps') from rfl]
      simp only [List.length_append, List.length_cons] at *
      omega

theorem jsonLoadsChars_dumps (obj : List (List Char × List Char)) :
    jsonLoadsChars (jsonDumpsChars obj) = some obj := by
  cases obj with
  | nil => rfl
  | cons kv ps =>
    obtain ⟨t, ht⟩ := renderPairsChars_cons_head kv ps
    rw [jsonDumpsChars, jsonLoadsChars]
    rw [if_pos rfl]
    rw [if_neg (by rw [ht]; simp)]
    rw [show renderPairsChars (kv :: ps) ++ ['}'] = renderPairsChars (kv :: ps) ++ '}' :: []
        from rfl]
    rw [parsePairList_render (kv :: ps) [] _ (by simp)
        (by
          have h := length_le_renderPairsChars (kv :: ps)
          simp only [List.length_append, List.length_cons, List.length_nil] at h ⊢
          omega)]

/-- The JSON round-trip: deserializing a serialized transcript event
recovers the event's fields. -/
theorem json_loads_dumps (obj : List (String × String)) :
    json_loads (json_dumps obj) = some obj := by
  rw [json_loads, json_dumps]
  rw [show (String.mk (jsonDumpsChars (obj.map (fun kv => (kv.1.data, kv.2.data))))).data
        = jsonDumpsChars (obj.map (fun kv => (kv.1.data, kv.2.data))) from rfl]
  rw [jsonLoadsChars_dumps]
  simp only [Option.map_some', List.map_map]
  congr 1
  induction obj with
  | nil => rfl
  | cons kv t ih =>
    simp only [List.map_cons, ih]
    rfl

/-! ## Session id and file names (main.py lines 37-39) -/

/-- A UTC wall-clock time at second resolution, as read by
`datetime.utcnow()` when the connection is accepted. -/
structure UtcTime where
  year : Nat
  month : Nat
  day : Nat
  hour : Nat
  minute : Nat
  second : Nat
deriving DecidableEq, Repr

/-- Zero-pad the decimal representation of `n` to at least `w` digits. -/
def padNum (w n : Nat) : String :=
  let s := Nat.repr n
  String.mk (List.replicate (w - s.length) '0' ++ s.data)

/-- `datetime.strftime("%Y%m%d%H%M%S")` (main.py line 37): the session id. -/
def strftimeYmdHMS (t : UtcTime) : String :=
  padNum 4 t.year ++ padNum 2 t.month ++ padNum 2 t.day ++
  padNum 2 t.hour ++ padNum 2 t.minute ++ padNum 2 t.second

/-- main.py line 38. -/
def conversation_audio_file (session_id : String) : String :=
  "conversation_" ++ session_id ++ ".wav"

/-- main.py line 39. -/
def transcript_file (session_id : String) : String :=
  "transcript_" ++ session_id ++ ".txt"

/-! ## The termination flag (`threading.Event`, main.py line 35) -/

/-- `threading.Event`: a boolean flag. -/
structure ThreadingEvent where
  flag : Bool
deriving DecidableEq, Repr

/-- `Event.set()`. -/
def ThreadingEvent.set (_e : ThreadingEvent) : ThreadingEvent := ⟨true⟩

/-- `Event.clear()` — part of the API, never called anywhere in main.py. -/
def ThreadingEvent.clear (_e : ThreadingEvent) : ThreadingEvent := ⟨false⟩

/-- `Event.is_set()`. -/
def ThreadingEvent.is_set (e : ThreadingEvent) : Bool := e.flag

/-! ## The Deepgram agent thread (main.py lines 61-109) -/

/-- One conversation event as enqueued by `on_conversation_text`
(main.py line 90): `conversation_text.__dict__`, a flat record with
string keys and string values, in insertion order. -/
abbrev ConvEvent := List (String × String)

/-- The `SettingsOptions` fields assigned on main.py lines 64-78. -/
structure AgentSettings where
  inputEncoding : String
  inputSampleRate : Nat
  outputEncoding : String
  outputSampleRate : Nat
  outputContainer : String
  language : String
  listenProviderType : String
  listenProviderModel : String
  thinkProviderType : String
  thinkProviderModel : String
  thinkPrompt : String
  speakProviderType : String
  speakProviderModel : String
  greeting : String
deriving DecidableEq, Repr

/-- The constant agent configuration of main.py lines 64-78. -/
def agentSettings : AgentSettings :=
  { inputEncoding := "linear16", inputSampleRate := 24000,
    outputEncoding := "linear16", outputSampleRate := 24000,
    outputContainer := "wav", language := "en",
    listenProviderType := "deepgram", listenProviderModel := "nova-3",
    thinkProviderType := "open_ai", thinkProviderModel := "gpt-4o-mini",
    thinkPrompt := "You are a friendly AI assistant.",
    speakProviderType := "deepgram", speakProviderModel := "aura-2-thalia-en",
    greeting := "Hello! How can I help you today?" }

/-- Observable actions of `deepgram_agent_thread`. -/
inductive AgentAction where
  | createConnection                        -- line 63
  | configureSettings (s : AgentSettings)   -- lines 64-78
  | startKeepAlive                          -- line 84
  | registerCallbacks                       -- lines 92-93
  | connectionStart (ok : Bool)             -- line 95: connection.start(options)
  | sendAudio (chunk : List Nat)            -- line 102: connection.send(chunk)
  | sendRaised                              -- line 102 raising, caught on line 107
  | setFlagAgent                            -- line 96 or 109: processing_complete.set()
  | finishConn                              -- line 106: connection.finish()
deriving DecidableEq, Repr

/-- The forwarding loop (main.py lines 99-104).  Each entry of `polls` is
what one loop iteration observes while the termination flag is still
clear: `none` is `queue.Empty` after the 1-second timeout (line 103,
`continue`), `some chunk` a dequeued chunk sent on line 102.  The loop
exits when the flag is observed set, i.e. at the end of `polls`.
`raiseAt = some i` injects an exception into the `i`-th `connection.send`
(counting sends only); the pair's second component reports whether an
exception was raised. -/
def agentSendLoop (raiseAt : Option Nat) : Nat → List (Option (List Nat)) →
    List AgentAction × Bool
  | _, [] => ([], false)
  | idx, none :: ps => agentSendLoop raiseAt idx ps
  | idx, some chunk :: ps =>
    if raiseAt = some idx then ([.sendRaised], true)
    else
      let (as, r) := agentSendLoop raiseAt (idx + 1) ps
      (.sendAudio chunk :: as, r)

/-- `deepgram_agent_thread` (main.py lines 61-109) as a function of its
interaction with the outside world: whether `connection.start(options)`
succeeds (`handshakeOk`), the queue observations of the forwarding loop
(`polls`), and an optionally injected send exception (`raiseAt`).
Returns the ordered actions the thread performs and whether the thread
itself set the termination flag: on handshake failure it sets the flag
and returns (lines 95-97) without sending any audio; on an exception it
sets the flag (lines 107-109) without calling `connection.finish()`;
otherwise it finishes the connection (line 106) and leaves the flag to
others. -/
def deepgram_agent_thread (handshakeOk : Bool) (polls : List (Option (List Nat)))
    (raiseAt : Option Nat) : List AgentAction × Bool :=
  let pre := [AgentAction.createConnection, .configureSettings agentSettings,
    .startKeepAlive, .registerCallbacks]
  if handshakeOk = false then
    (pre ++ [.connectionStart false, .setFlagAgent], true)
  else
    let (as, raised) := agentSendLoop raiseAt 0 polls
    if raised then (pre ++ [.connectionStart true] ++ as ++ [.setFlagAgent], true)
    else (pre ++ [.connectionStart true] ++ as ++ [.finishConn], false)

/-! ## The relay handler (`websocket_call`, main.py lines 28-138)

The handler's interaction with its environment in one session is: the
path parameter `agent_id` (line 29, never used in the body), the
`datetime.utcnow()` acceptance time (line 37), whether the `open` of the
conversation file succeeds (line 114), a failure schedule for the
filesystem write operations (the header write on line 115 is operation 0,
then each `conv_file.write` and each transcript append in program
order), and the interleaving observed by the receive loop: per loop
iteration one client frame (line 119) plus the agent-audio frames and
conversation events found in the queues when they are drained to
exhaustion (lines 124-134).  The loop ends with `WebSocketDisconnect`
raised by `receive_bytes`; a failed write raises `OSError`, which the
`except WebSocketDisconnect` clause does not catch, so it propagates out
of the handler (closing the file through the `with` block). -/

/-- One iteration of the relay receive loop (main.py lines 118-134). -/
structure Iteration where
  clientFrame : List Nat
  agentFrames : List (List Nat)
  events : List ConvEvent
deriving DecidableEq, Repr

/-- Observable actions of `websocket_call`. -/
inductive Action where
  | startAgentThread                     -- line 111
  | openConvFile                         -- line 114
  | writeWavHeader (bytes : List Nat)    -- line 115
  | recvClientFrame (bytes : List Nat)   -- line 119
  | putClientAudio (bytes : List Nat)    -- line 120
  | writeAudio (bytes : List Nat)        -- line 121 or 126
  | takeAgentAudio (bytes : List Nat)    -- line 125
  | sendBytesToClient (bytes : List Nat) -- line 127
  | sendJsonToClient (e : ConvEvent)     -- line 132
  | appendTranscript (e : ConvEvent)     -- lines 133-134
  | setFlag                              -- line 137
  | closeConvFile                        -- exit of the with-block of line 114
deriving DecidableEq, Repr

/-- Drain the agent audio queue to exhaustion (main.py lines 124-127):
take, write to the conversation file, send to the client.  Returns the
actions, the next write-operation index, and whether a write raised. -/
def drainAgentAudio (fail : Nat → Bool) : Nat → List (List Nat) →
    List Action × Nat × Bool
  | n, [] => ([], n, false)
  | n, a :: rest =>
    if fail n then ([.takeAgentAudio a], n, true)
    else
      let (as, n', ab) := drainAgentAudio fail (n + 1) rest
      (.takeAgentAudio a :: .writeAudio a :: .sendBytesToClient a :: as, n', ab)

/-- Drain the transcript queue to exhaustion (main.py lines 130-134):
send to the client, then append one line to the transcript file. -/
def drainTranscripts (fail : Nat → Bool) : Nat → List ConvEvent →
    List Action × Nat × Bool
  | n, [] => ([], n, false)
  | n, e :: rest =>
    if fail n then ([.sendJsonToClient e], n, true)
    else
      let (as, n', ab) := drainTranscripts fail (n + 1) rest
      (.sendJsonToClient e :: .appendTranscript e :: as, n', ab)

/-- The relay receive loop (main.py lines 118-134): receive one client
frame, put it on the agent queue, write it to the conversation file, then
drain the two queues; repeat until disconnect (end of `its`) or an
uncaught write error. -/
def relayLoop (fail : Nat → Bool) : Nat → List Iteration → List Action × Nat × Bool
  | n, [] => ([], n, false)
  | n, it :: rest =>
    let pre := [Action.recvClientFrame it.clientFrame, .putClientAudio it.clientFrame]
    if fail n then (pre, n, true)
    else
      let (as1, n1, ab1) := drainAgentAudio fail (n + 1) it.agentFrames
      if ab1 then (pre ++ [.writeAudio it.clientFrame] ++ as1, n1, true)
      else
        let (as2, n2, ab2) := drainTranscripts fail n1 it.events
        if ab2 then (pre ++ [.writeAudio it.clientFrame] ++ as1 ++ as2, n2, true)
        else
          let (as3, n3, ab3) := relayLoop fail n2 rest
          (pre ++ [.writeAudio it.clientFrame] ++ as1 ++ as2 ++ as3, n3, ab3)

/-- The observable outcome of one invocation of `websocket_call`:
the two file names derived from the session id, the ordered actions, and
whether the handler terminated by an uncaught exception (`aborted`)
rather than by the handled `WebSocketDisconnect`. -/
structure RelayOutcome where
  convFileName : String
  transcriptName : String
  trace : List Action
  aborted : Bool
deriving DecidableEq, Repr

/-- `websocket_call` (main.py lines 28-138).  The agent thread is started
on line 111 before the conversation file is opened on line 114; if the
`open` fails the exception propagates at once (nothing else happens in
the handler and the termination flag is never set by it).  A write
failure aborts the loop: the `with` block closes the file and the
exception propagates, skipping the `except WebSocketDisconnect` handler,
so the flag is not set.  On a normal disconnect the flag is set (line
137) and then the file is closed. -/
def websocket_call (agent_id : String) (acceptTime : UtcTime) (openOk : Bool)
    (fail : Nat → Bool) (its : List Iteration) : RelayOutcome :=
  let session_id := strftimeYmdHMS acceptTime
  let conv := conversation_audio_file session_id
  let tf := transcript_file session_id
  let t0 := [Action.startAgentThread]
  if openOk = false then
    { convFileName := conv, transcriptName := tf, trace := t0, aborted := true }
  else if fail 0 then
    { convFileName := conv, transcriptName := tf,
      trace := t0 ++ [.openConvFile, .closeConvFile], aborted := true }
  else
    let (as, _, ab) := relayLoop fail 1 its
    if ab then
      { convFileName := conv, transcriptName := tf,
        trace := t0 ++ [.openConvFile, .writeWavHeader wavHeaderBytes] ++ as
          ++ [.closeConvFile],
        aborted := true }
    else
      { convFileName := conv, transcriptName := tf,
        trace := t0 ++ [.openConvFile, .writeWavHeader wavHeaderBytes] ++ as
          ++ [.setFlag, .closeConvFile],
        aborted := false }

/-! ### Observers over traces -/

/-- The conversation audio file contents: every `conv_file.write`, in
trace order (the header write included). -/
def convFileBytes (tr : List Action) : List Nat :=
  cmap (fun a => match a with
    | .writeWavHeader b => b
    | .writeAudio b => b
    | _ => []) tr

/-- The audio payload segments: the frame writes after the header, as a
list of segments in trace order. -/
def payloadSegments (tr : List Action) : List (List Nat) :=
  tr.filterMap (fun a => match a with | .writeAudio b => some b | _ => none)

/-- The frames observed by the relay loop, in observation order: per
iteration the client frame first, then the drained agent frames. -/
def observedFrames (its : List Iteration) : List (List Nat) :=
  cmap (fun it => it.clientFrame :: it.agentFrames) its

/-- The conversation events drained by the relay, in order. -/
def eventsOf (its : List Iteration) : List ConvEvent :=
  cmap (fun it => it.events) its

/-- The audio frames sent to the client, in order. -/
def sentAudio (tr : List Action) : List (List Nat) :=
  tr.filterMap (fun a => match a with | .sendBytesToClient b => some b | _ => none)

/-- The transcript-related actions (send-to-client and file-append), in
trace order. -/
def transcriptActions (tr : List Action) : List Action :=
  tr.filter (fun a => match a with
    | .sendJsonToClient _ => true
    | .appendTranscript _ => true
    | _ => false)

/-- The events appended to the transcript file, in order. -/
def appendedEvents (tr : List Action) : List ConvEvent :=
  tr.filterMap (fun a => match a with | .appendTranscript e => some e | _ => none)

/-- The transcript file contents: one serialized line, with trailing
newline, per appended event. -/
def transcriptFileContents (tr : List Action) : String :=
  String.join ((appendedEvents tr).map (fun e => json_dumps e ++ "\n"))

/-- The files that exist on disk after the session: the conversation file
iff it was opened, the transcript file iff some append created it (it is
opened in append mode only inside the drain loop, line 133). -/
def filesCreated (o : RelayOutcome) : List String :=
  (if Action.openConvFile ∈ o.trace then [o.convFileName] else []) ++
  (if appendedEvents o.trace ≠ [] then [o.transcriptName] else [])

/-- Applying one relay action to the termination flag: the only flag
operation the handler performs is `processing_complete.set()`. -/
def applyAction (e : ThreadingEvent) (a : Action) : ThreadingEvent :=
  match a with
  | .setFlag => e.set
  | _ => e

/-- Applying one agent-thread action to the termination flag. -/
def applyAgentAction (e : ThreadingEvent) (a : AgentAction) : ThreadingEvent :=
  match a with
  | .setFlagAgent => e.set
  | _ => e

/-! ### Happy-path normal form of the relay loop -/

/-- The trace of one loop iteration when no write fails. -/
def iterTrace (it : Iteration) : List Action :=
  [.recvClientFrame it.clientFrame, .putClientAudio it.clientFrame,
   .writeAudio it.clientFrame]
  ++ cmap (fun a => [.takeAgentAudio a, .writeAudio a, .sendBytesToClient a]) it.agentFrames
  ++ cmap (fun e => [.sendJsonToClient e, .appendTranscript e]) it.events

/-- Write operations performed by one iteration. -/
def iterOps (it : Iteration) : Nat := 1 + it.agentFrames.length + it.events.length

/-- Write operations performed by a run of the loop. -/
def opsCount (its : List Iteration) : Nat := (its.map iterOps).sum

theorem drainAgentAudio_noFail (fail : Nat → Bool) (hf : ∀ n, fail n = false) :
    ∀ (n : Nat) (frames : List (List Nat)),
      drainAgentAudio fail n frames =
        (cmap (fun a => [.takeAgentAudio a, .writeAudio a, .sendBytesToClient a]) frames,
         n + frames.length, false)
  | n, [] => by simp [drainAgentAudio]
  | n, a :: rest => by
    rw [drainAgentAudio, hf n, drainAgentAudio_noFail fail hf (n + 1) rest]
    simp [cmap]
    omega

theorem drainTranscripts_noFail (fail : Nat → Bool) (hf : ∀ n, fail n = false) :
    ∀ (n : Nat) (evs : List ConvEvent),
      drainTranscripts fail n evs =
        (cmap (fun e => [.sendJsonToClient e, .appendTranscript e]) evs,
         n + evs.length, false)
  | n, [] => by simp [drainTranscripts]
  | n, e :: rest => by
    rw [drainTranscripts, hf n, drainTranscripts_noFail fail hf (n + 1) rest]
    simp [cmap]
    omega

theorem relayLoop_noFail (fail : Nat → Bool) (hf : ∀ n, fail n = false) :
    ∀ (n : Nat) (its : List Iteration),
      relayLoop fail n its = (cmap iterTrace its, n + opsCount its, false) := by
  intro n its
  induction its generalizing n with
  | nil => simp [relayLoop, opsCount]
  | cons it rest ih =>
    rw [relayLoop]
    simp [hf, drainAgentAudio_noFail fail hf, drainTranscripts_noFail fail hf, ih,
      cmap, iterTrace, opsCount, iterOps]
    omega

/-- The outcome of a session in which the `open` succeeds, no write
fails, and the client eventually disconnects. -/
theorem websocket_call_noFail (aid : String) (t : UtcTime) (fail : Nat → Bool)
    (its : List Iteration) (hf : ∀ n, fail n = false) :
    websocket_call aid t true fail its =
      { convFileName := conversation_audio_file (strftimeYmdHMS t),
        transcriptName := transcript_file (strftimeYmdHMS t),
        trace := Action.startAgentThread :: .openConvFile :: .writeWavHeader wavHeaderBytes
          :: (cmap iterTrace its ++ [.setFlag, .closeConvFile]),
        aborted := false } := by
  rw [websocket_call]
  rw [relayLoop_noFail fail hf 1 its]
  simp [hf 0]

/-! ### Distribution lemmas for the trace observers -/

@[simp] theorem payloadSegments_append (l₁ l₂ : List Action) :
    payloadSegments (l₁ ++ l₂) = payloadSegments l₁ ++ payloadSegments l₂ :=
  List.filterMap_append _ _ _

@[simp] theorem sentAudio_append (l₁ l₂ : List Action) :
    sentAudio (l₁ ++ l₂) = sentAudio l₁ ++ sentAudio l₂ :=
  List.filterMap_append _ _ _

@[simp] theorem appendedEvents_append (l₁ l₂ : List Action) :
    appendedEvents (l₁ ++ l₂) = appendedEvents l₁ ++ appendedEvents l₂ :=
  List.filterMap_append _ _ _

@[simp] theorem transcriptActions_append (l₁ l₂ : List Action) :
    transcriptActions (l₁ ++ l₂) = transcriptActions l₁ ++ transcriptActions l₂ :=
  List.filter_append _ _

@[simp] theorem convFileBytes_append (l₁ l₂ : List Action) :
    convFileBytes (l₁ ++ l₂) = convFileBytes l₁ ++ convFileBytes l₂ :=
  cmap_append _ _ _

theorem payloadSegments_audioTriples (frames : List (List Nat)) :
    payloadSegments
      (cmap (fun a => [.takeAgentAudio a, .writeAudio a, .sendBytesToClient a]) frames)
      = frames := by
  induction frames with
  | nil => rfl
  | cons a rest ih => simp [payloadSegments, List.filterMap_cons] at ih ⊢; exact ih

theorem payloadSegments_eventPairs (evs : List ConvEvent) :
    payloadSegments (cmap (fun e => [.sendJsonToClient e, .appendTranscript e]) evs)
      = [] := by
  induction evs with
  | nil => rfl
  | cons e rest ih => simp [payloadSegments, List.filterMap_cons] at ih ⊢; exact ih

theorem payloadSegments_iterTrace (it : Iteration) :
    payloadSegments (iterTrace it) = it.clientFrame :: it.agentFrames := by
  rw [iterTrace]
  simp only [payloadSegments_append]
  rw [payloadSegments_audioTriples, payloadSegments_eventPairs]
  simp [payloadSegments, List.filterMap_cons]

/-- On the happy path the payload segments of the whole run are exactly
the observed frames, in order. -/
theorem payloadSegments_cmap_iterTrace (its : List Iteration) :
    payloadSegments (cmap iterTrace its) = observedFrames its := by
  induction its with
  | nil => rfl
  | cons it rest ih =>
    rw [cmap_cons, payloadSegments_append, payloadSegments_iterTrace, ih]
    rfl

theorem sentAudio_iterTrace (it : Iteration) :
    sentAudio (iterTrace it) = it.agentFrames := by
  rw [iterTrace]
  simp only [sentAudio_append]
  have h1 : sentAudio
      (cmap (fun a => [.takeAgentAudio a, .writeAudio a, .sendBytesToClient a])
        it.agentFrames) = it.agentFrames := by
    induction it.agentFrames with
    | nil => rfl
    | cons a rest ih => simp [sentAudio, List.filterMap_cons] at ih ⊢; exact ih
  have h2 : sentAudio (cmap (fun e => [.sendJsonToClient e, .appendTranscript e])
      it.events) = [] := by
    induction it.events with
    | nil => rfl
    | cons e rest ih => simp [sentAudio, List.filterMap_cons] at ih ⊢; exact ih
  rw [h1, h2]
  simp [sentAudio, List.filterMap_cons]

theorem transcriptActions_iterTrace (it : Iteration) :
    transcriptActions (iterTrace it) =
      cmap (fun e => [.sendJsonToClient e, .appendTranscript e]) it.events := by
  rw [iterTrace]
  simp only [transcriptActions_append]
  have h1 : transcriptActions
      (cmap (fun a => [.takeAgentAudio a, .writeAudio a, .sendBytesToClient a])
        it.agentFrames) = [] := by
    induction it.agentFrames with
    | nil => rfl
    | cons a rest ih => simp [transcriptActions, List.filter_cons] at ih ⊢; exact ih
  have h2 : transcriptActions (cmap (fun e => [.sendJsonToClient e, .appendTranscript e])
      it.events) = cmap (fun e => [.sendJsonToClient e, .appendTranscript e]) it.events := by
    induction it.events with
    | nil => rfl
    | cons e rest ih => simp [transcriptActions, List.filter_cons] at ih ⊢; exact ih
  rw [h1, h2]
  simp [transcriptActions, List.filter_cons]

/-- On the happy path the transcript-related actions are exactly, for
each drained event in order, one send to the client followed by one
append to the transcript file. -/
theorem transcriptActions_cmap_iterTrace (its : List Iteration) :
    transcriptActions (cmap iterTrace its) =
      cmap (fun e => [.sendJsonToClient e, .appendTranscript e]) (eventsOf its) := by
  induction its with
  | nil => rfl
  | cons it rest ih =>
    rw [cmap_cons, transcriptActions_append, transcriptActions_iterTrace, ih]
    simp [eventsOf, cmap_append]

theorem appendedEvents_eventPairs (evs : List ConvEvent) :
    appendedEvents (cmap (fun e => [.sendJsonToClient e, .appendTranscript e]) evs)
      = evs := by
  induction evs with
  | nil => rfl
  | cons e rest ih => simp [appendedEvents, List.filterMap_cons] at ih ⊢; exact ih

theorem appendedEvents_iterTrace (it : Iteration) :
    appendedEvents (iterTrace it) = it.events := by
  rw [iterTrace]
  simp only [appendedEvents_append]
  have h1 : appendedEvents
      (cmap (fun a => [.takeAgentAudio a, .writeAudio a, .sendBytesToClient a])
        it.agentFrames) = [] := by
    induction it.agentFrames with
    | nil => rfl
    | cons a rest ih => simp [appendedEvents, List.filterMap_cons] at ih ⊢; exact ih
  rw [h1, appendedEvents_eventPairs]
  simp [appendedEvents, List.filterMap_cons]

theorem appendedEvents_cmap_iterTrace (its : List Iteration) :
    appendedEvents (cmap iterTrace its) = eventsOf its := by
  induction its with
  | nil => rfl
  | cons it rest ih =>
    rw [cmap_cons, appendedEvents_append, appendedEvents_iterTrace, ih]
    rfl

theorem convFileBytes_iterTrace (it : Iteration) :
    convFileBytes (iterTrace it) = it.clientFrame ++ it.agentFrames.flatten := by
  rw [iterTrace]
  simp only [convFileBytes_append]
  have h1 : convFileBytes
      (cmap (fun a => [.takeAgentAudio a, .writeAudio a, .sendBytesToClient a])
        it.agentFrames) = it.agentFrames.flatten := by
    induction it.agentFrames with
    | nil => rfl
    | cons a rest ih =>
      simp only [cmap_cons, convFileBytes_append, ih, List.flatten_cons]
      simp [convFileBytes, cmap]
  have h2 : convFileBytes (cmap (fun e => [.sendJsonToClient e, .appendTranscript e])
      it.events) = [] := by
    induction it.events with
    | nil => rfl
    | cons e rest ih => simpa [convFileBytes, cmap] using ih
  rw [h1, h2]
  simp [convFileBytes, cmap]

theorem convFileBytes_cmap_iterTrace (its : List Iteration) :
    convFileBytes (cmap iterTrace its) = (observedFrames its).flatten := by
  induction its with
  | nil => rfl
  | cons it rest ih =>
    rw [cmap_cons, convFileBytes_append, convFileBytes_iterTrace, ih]
    simp [observedFrames, cmap_cons, List.flatten_cons, List.flatten_append,
      List.append_assoc]

/-! ### The relay loop performs only loop actions (no closes, no flag
operations), also in runs where a write fails -/

/-- Actions that can occur inside the receive loop body. -/
def isLoopAction : Action → Bool
  | .recvClientFrame _ => true
  | .putClientAudio _ => true
  | .writeAudio _ => true
  | .takeAgentAudio _ => true
  | .sendBytesToClient _ => true
  | .sendJsonToClient _ => true
  | .appendTranscript _ => true
  | _ => false

theorem drainAgentAudio_loopActions (fail : Nat → Bool) :
    ∀ (n : Nat) (frames : List (List Nat)) (a : Action),
      a ∈ (drainAgentAudio fail n frames).1 → isLoopAction a = true := by
  intro n frames
  induction frames generalizing n with
  | nil => intro a ha; simp [drainAgentAudio] at ha
  | cons f rest ih =>
    intro a ha
    rw [drainAgentAudio] at ha
    by_cases hfn : fail n
    · simp [hfn] at ha
      subst ha; rfl
    · rcases hdr : drainAgentAudio fail (n + 1) rest with ⟨as, n', ab⟩
      rw [if_neg (by simp [hfn]), hdr] at ha
      simp only [List.mem_cons] at ha
      rcases ha with h | h | h | h
      · subst h; rfl
      · subst h; rfl
      · subst h; rfl
      · exact ih (n + 1) a (by rw [hdr]; exact h)

theorem drainTranscripts_loopActions (fail : Nat → Bool) :
    ∀ (n : Nat) (evs : List ConvEvent) (a : Action),
      a ∈ (drainTranscripts fail n evs).1 → isLoopAction a = true := by
  intro n evs
  induction evs generalizing n with
  | nil => intro a ha; simp [drainTranscripts] at ha
  | cons e rest ih =>
    intro a ha
    rw [drainTranscripts] at ha
    by_cases hfn : fail n
    · simp [hfn] at ha
      subst ha; rfl
    · rcases hdr : drainTranscripts fail (n + 1) rest with ⟨as, n', ab⟩
      rw [if_neg (by simp [hfn]), hdr] at ha
      simp only [List.mem_cons] at ha
      rcases ha with h | h | h
      · subst h; rfl
      · subst h; rfl
      · exact ih (n + 1) a (by rw [hdr]; exact h)

theorem relayLoop_loopActions (fail : Nat → Bool) :
    ∀ (n : Nat) (its : List Iteration) (a : Action),
      a ∈ (relayLoop fail n its).1 → isLoopAction a = true := by
  intro n its
  induction its generalizing n with
  | nil => intro a ha; simp [relayLoop] at ha
  | cons it rest ih =>
    intro a ha
    rw [relayLoop] at ha
    by_cases hfn : fail n
    · simp [hfn] at ha
      rcases ha with h | h <;> (subst h; rfl)
    · rcases hd1 : drainAgentAudio fail (n + 1) it.agentFrames with ⟨as1, n1, ab1⟩
      rw [if_neg (by simp [hfn]), hd1] at ha
      try simp only [] at ha
      cases ab1 with
      | true =>
        rw [if_pos rfl] at ha
        simp only [List.mem_append, List.mem_cons, List.not_mem_nil, or_false] at ha
        rcases ha with ((h | h) | h) | h
        · subst h; rfl
        · subst h; rfl
        · subst h; rfl
        · exact drainAgentAudio_loopActions fail (n + 1) it.agentFrames a
            (by rw [hd1]; exact h)
      | false =>
        rw [if_neg (by simp)] at ha
        rcases hd2 : drainTranscripts fail n1 it.events with ⟨as2, n2, ab2⟩
        rw [hd2] at ha
        try simp only [] at ha
        cases ab2 with
        | true =>
          rw [if_pos rfl] at ha
          simp only [List.mem_append, List.mem_cons, List.not_mem_nil, or_false] at ha
          rcases ha with (((h | h) | h) | h) | h
          · subst h; rfl
          · subst h; rfl
          · subst h; rfl
          · exact drainAgentAudio_loopActions fail (n + 1) it.agentFrames a
              (by rw [hd1]; exact h)
          · exact drainTranscripts_loopActions fail n1 it.events a
              (by rw [hd2]; exact h)
        | false =>
          rw [if_neg (by simp)] at ha
          rcases hd3 : relayLoop fail n2 rest with ⟨as3, n3, ab3⟩
          rw [hd3] at ha
          try simp only [] at ha
          simp only [List.mem_append, List.mem_cons, List.not_mem_nil, or_false] at ha
          rcases ha with ((((h | h) | h) | h) | h) | h
          · subst h; rfl
          · subst h; rfl
          · subst h; rfl
          · exact drainAgentAudio_loopActions fail (n + 1) it.agentFrames a
              (by rw [hd1]; exact h)
          · exact drainTranscripts_loopActions fail n1 it.events a
              (by rw [hd2]; exact h)
          · exact ih n2 a (by rw [hd3]; exact h)

theorem relayLoop_count_eq_zero (fail : Nat → Bool) (n : Nat) (its : List Iteration)
    (a : Action) (ha : isLoopAction a = false) :
    (relayLoop fail n its).1.count a = 0 := by
  rw [List.count_eq_zero]
  intro hmem
  have := relayLoop_loopActions fail n its a hmem
  rw [ha] at this
  cases this

/-- The agent forwarding loop emits only send actions. -/
theorem agentSendLoop_mem (raiseAt : Option Nat) :
    ∀ (idx : Nat) (polls : List (Option (List Nat))) (a : AgentAction),
      a ∈ (agentSendLoop raiseAt idx polls).1 →
      (∃ b, a = .sendAudio b) ∨ a = .sendRaised := by
  intro idx polls
  induction polls generalizing idx with
  | nil => intro a ha; simp [agentSendLoop] at ha
  | cons p rest ih =>
    intro a ha
    cases p with
    | none => exact ih idx a (by rw [agentSendLoop] at ha; exact ha)
    | some chunk =>
      rw [agentSendLoop] at ha
      by_cases hr : raiseAt = some idx
      · rw [if_pos hr] at ha
        simp at ha
        right; exact ha
      · rcases hs : agentSendLoop raiseAt (idx + 1) rest with ⟨as, r⟩
        rw [if_neg hr, hs] at ha
        simp only [List.mem_cons] at ha
        rcases ha with h | h
        · left; exact ⟨chunk, h⟩
        · exact ih (idx + 1) a (by rw [hs]; exact h)

/-- A slice strictly below a slice assignment is unchanged by it. -/
theorem slice_setSlice_lower (l r : List Nat) (s k len : Nat) (h : k + len ≤ s)
    (hs : s ≤ l.length) :
    ((setSlice l s r).drop k).take len = (l.drop k).take len := by
  rw [List.take_drop, List.take_drop, setSlice_take l r s (k + len) h hs]

/-! ## Concrete demonstration inputs (the end-to-end scenario of §8 of
the specification) -/

/-- A concrete acceptance time: 2026-10-12 00:00:00 UTC. -/
def demoTime : UtcTime := ⟨2026, 10, 12, 0, 0, 0⟩

/-- The end-to-end scenario: the client sends two frames; one agent audio
frame and one conversation event are drained after the first client
frame; then the client disconnects. -/
def demoIts : List Iteration :=
  [{ clientFrame := [1, 2], agentFrames := [[0xaa, 0xbb]],
     events := [[("role", "assistant"), ("content", "hi")]] },
   { clientFrame := [3, 4], agentFrames := [], events := [] }]

/-! ## The claims -/

/-- On the happy path the conversation file holds the header followed by
the observed frames, concatenated in observation order. -/
theorem convFileBytes_noFail (aid : String) (t : UtcTime) (fail : Nat → Bool)
    (its : List Iteration) (hf : ∀ n, fail n = false) :
    convFileBytes (websocket_call aid t true fail its).trace
      = wavHeaderBytes ++ (observedFrames its).flatten := by
  rw [websocket_call_noFail aid t fail its hf]
  rw [show (Action.startAgentThread :: Action.openConvFile ::
        Action.writeWavHeader wavHeaderBytes ::
        (cmap iterTrace its ++ [Action.setFlag, Action.closeConvFile]))
      = [Action.startAgentThread, Action.openConvFile,
          Action.writeWavHeader wavHeaderBytes]
        ++ (cmap iterTrace its ++ [Action.setFlag, Action.closeConvFile]) from rfl,
      convFileBytes_append, convFileBytes_append, convFileBytes_cmap_iterTrace]
  simp [convFileBytes, cmap]

/-- C1: for every session and every interleaved sequence of N inbound
client audio frames and M agent audio frames observed by the relay loop
(with every file write succeeding), the recording file's payload — the
bytes after the header — is exactly the concatenation of those N+M frames
in the relative order the relay observed them: no frame is reordered,
dropped, or duplicated. -/
theorem C1_payload_is_observed_interleaving (aid : String) (t : UtcTime)
    (fail : Nat → Bool) (its : List Iteration) (hf : ∀ n, fail n = false) :
    payloadSegments (websocket_call aid t true fail its).trace = observedFrames its ∧
    convFileBytes (websocket_call aid t true fail its).trace
      = wavHeaderBytes ++ (observedFrames its).flatten := by
  constructor
  · rw [websocket_call_noFail aid t fail its hf]
    rw [show (Action.startAgentThread :: Action.openConvFile ::
          Action.writeWavHeader wavHeaderBytes ::
          (cmap iterTrace its ++ [Action.setFlag, Action.closeConvFile]))
        = [Action.startAgentThread, Action.openConvFile,
            Action.writeWavHeader wavHeaderBytes]
          ++ (cmap iterTrace its ++ [Action.setFlag, Action.closeConvFile]) from rfl,
        payloadSegments_append, payloadSegments_append, payloadSegments_cmap_iterTrace]
    simp [payloadSegments]
  · exact convFileBytes_noFail aid t fail its hf

/-- Witness for C1 at the concrete end-to-end scenario. -/
theorem C1_witness :
    payloadSegments (websocket_call "agent-1" demoTime true (fun _ => false)
        demoIts).trace = [[1, 2], [0xaa, 0xbb], [3, 4]] := by
  have h := C1_payload_is_observed_interleaving "agent-1" demoTime (fun _ => false)
    demoIts (fun _ => rfl)
  rw [h.1]
  rfl

/-- C5: for every session (with every file write succeeding), the
recorded audio file begins with a header of exactly 44 bytes, written
immediately when the audio file is created (the write is the very next
action after the open), and every audio payload byte comes after those 44
bytes. -/
theorem C5_header_44_bytes_then_payload (aid : String) (t : UtcTime)
    (fail : Nat → Bool) (its : List Iteration) (hf : ∀ n, fail n = false) :
    wavHeaderBytes.length = 44 ∧
    (∃ rest, (websocket_call aid t true fail its).trace
        = Action.startAgentThread :: Action.openConvFile ::
          Action.writeWavHeader wavHeaderBytes :: rest) ∧
    convFileBytes (websocket_call aid t true fail its).trace
      = wavHeaderBytes ++ (observedFrames its).flatten := by
  refine ⟨by set_option maxRecDepth 4000 in decide, ?_, ?_⟩
  · rw [websocket_call_noFail aid t fail its hf]
    exact ⟨_, rfl⟩
  · exact convFileBytes_noFail aid t fail its hf

/-- Witness for C5 at the concrete end-to-end scenario. -/
theorem C5_witness :
    wavHeaderBytes.length = 44 ∧
    convFileBytes (websocket_call "agent-1" demoTime true (fun _ => false)
        demoIts).trace = wavHeaderBytes ++ [1, 2, 0xaa, 0xbb, 3, 4] := by
  have h := C5_header_44_bytes_then_payload "agent-1" demoTime (fun _ => false)
    demoIts (fun _ => rfl)
  exact ⟨h.1, h.2.2.trans (by rfl)⟩

/-- C6: every conversation event drained from the event queue produces
exactly one message sent to the client and exactly one line appended to
the transcript file, the send happening before the append, and
deserializing the transcript line recovers the original event's
fields. -/
theorem C6_one_send_one_line_roundtrip (aid : String) (t : UtcTime)
    (fail : Nat → Bool) (its : List Iteration) (hf : ∀ n, fail n = false) :
    transcriptActions (websocket_call aid t true fail its).trace
      = cmap (fun e => [.sendJsonToClient e, .appendTranscript e]) (eventsOf its) ∧
    appendedEvents (websocket_call aid t true fail its).trace = eventsOf its ∧
    transcriptFileContents (websocket_call aid t true fail its).trace
      = String.join ((eventsOf its).map (fun e => json_dumps e ++ "\n")) ∧
    ∀ e : ConvEvent, json_loads (json_dumps e) = some e := by
  rw [websocket_call_noFail aid t fail its hf]
  have hsplit : (Action.startAgentThread :: Action.openConvFile ::
        Action.writeWavHeader wavHeaderBytes ::
        (cmap iterTrace its ++ [Action.setFlag, Action.closeConvFile]))
      = [Action.startAgentThread, Action.openConvFile,
          Action.writeWavHeader wavHeaderBytes]
        ++ (cmap iterTrace its ++ [Action.setFlag, Action.closeConvFile]) := rfl
  have h2 : appendedEvents ([Action.startAgentThread, Action.openConvFile,
        Action.writeWavHeader wavHeaderBytes]
        ++ (cmap iterTrace its ++ [Action.setFlag, Action.closeConvFile]))
      = eventsOf its := by
    rw [appendedEvents_append, appendedEvents_append, appendedEvents_cmap_iterTrace]
    simp [appendedEvents]
  refine ⟨?_, ?_, ?_, fun e => json_loads_dumps e⟩
  · rw [hsplit, transcriptActions_append, transcriptActions_append,
        transcriptActions_cmap_iterTrace]
    simp [transcriptActions]
  · rw [hsplit]; exact h2
  · rw [transcriptFileContents, hsplit, h2]

/-- Witness for C6 at the concrete end-to-end scenario. -/
theorem C6_witness :
    appendedEvents (websocket_call "agent-1" demoTime true (fun _ => false)
        demoIts).trace = [[("role", "assistant"), ("content", "hi")]] ∧
    json_loads (json_dumps [("role", "assistant"), ("content", "hi")])
      = some [("role", "assistant"), ("content", "hi")] := by
  have h := C6_one_send_one_line_roundtrip "agent-1" demoTime (fun _ => false)
    demoIts (fun _ => rfl)
  exact ⟨h.2.1.trans (by rfl), h.2.2.2 _⟩

/-- C8: if the upstream agent handshake fails, the agent thread sets the
session's termination flag and returns at once: no audio is ever
forwarded to the backend afterwards and no finish handshake happens (the
channel goes directly to Closed). -/
theorem C8_handshake_failure_closes_and_signals (polls : List (Option (List Nat)))
    (raiseAt : Option Nat) :
    (deepgram_agent_thread false polls raiseAt).1
      = [AgentAction.createConnection, .configureSettings agentSettings,
         .startKeepAlive, .registerCallbacks, .connectionStart false, .setFlagAgent] ∧
    (deepgram_agent_thread false polls raiseAt).2 = true ∧
    (∀ b, AgentAction.sendAudio b ∉ (deepgram_agent_thread false polls raiseAt).1) ∧
    AgentAction.finishConn ∉ (deepgram_agent_thread false polls raiseAt).1 := by
  refine ⟨rfl, rfl, ?_, ?_⟩ <;> simp [deepgram_agent_thread]

/-- Witness for C8 at a concrete poll schedule. -/
theorem C8_witness :
    (deepgram_agent_thread false [some [9, 9], none] none).2 = true ∧
    (∀ b, AgentAction.sendAudio b
      ∉ (deepgram_agent_thread false [some [9, 9], none] none).1) := by
  have h := C8_handshake_failure_closes_and_signals [some [9, 9], none] none
  exact ⟨h.2.1, h.2.2.1⟩

/-- C10: the `agent_id` path parameter has no effect whatsoever on the
session: two sessions differing only in `agent_id` have identical
outcomes (same file names, same trace of writes and sends, same
termination behaviour); the upstream agent configuration `agentSettings`
is a constant that does not mention it either. -/
theorem C10_agent_id_has_no_effect (a₁ a₂ : String) (t : UtcTime) (openOk : Bool)
    (fail : Nat → Bool) (its : List Iteration) :
    websocket_call a₁ t openOk fail its = websocket_call a₂ t openOk fail its := rfl

/-- C2 is false as stated: in a session where the write of the first
client frame (filesystem operation 1, after the successful header write)
raises, the handler aborts — the second frame is never received, nothing
is logged-and-continued, and the termination flag is not even set. -/
theorem C2_counterexample :
    (websocket_call "agent-1" demoTime true (fun n => n == 1)
        [⟨[1], [], []⟩, ⟨[2], [], []⟩]).aborted = true ∧
    Action.recvClientFrame [2] ∉ (websocket_call "agent-1" demoTime true (fun n => n == 1)
        [⟨[1], [], []⟩, ⟨[2], [], []⟩]).trace ∧
    Action.setFlag ∉ (websocket_call "agent-1" demoTime true (fun n => n == 1)
        [⟨[1], [], []⟩, ⟨[2], [], []⟩]).trace := by
  decide

/-- C2 (amended): a failure of a single file write occurring after the
recorder's files were successfully opened is NOT caught: the exception
propagates out of the relay loop (only `WebSocketDisconnect` is
handled), terminating the session — no further frame is processed, the
conversation file is closed by the `with` block, and the handler never
sets the termination flag. -/
theorem C2_amended_write_failure_aborts_relay (aid : String) (t : UtcTime)
    (f : List Nat) (rest : List Iteration) :
    (websocket_call aid t true (fun n => n == 1) (⟨f, [], []⟩ :: rest)).aborted = true ∧
    (websocket_call aid t true (fun n => n == 1) (⟨f, [], []⟩ :: rest)).trace
      = [Action.startAgentThread, .openConvFile, .writeWavHeader wavHeaderBytes,
         .recvClientFrame f, .putClientAudio f, .closeConvFile] ∧
    payloadSegments (websocket_call aid t true (fun n => n == 1)
        (⟨f, [], []⟩ :: rest)).trace = [] ∧
    Action.setFlag ∉ (websocket_call aid t true (fun n => n == 1)
        (⟨f, [], []⟩ :: rest)).trace := by
  have hrl : relayLoop (fun n => n == 1) 1 (⟨f, [], []⟩ :: rest)
      = ([Action.recvClientFrame f, Action.putClientAudio f], 1, true) := by
    rw [relayLoop]
    simp
  rw [websocket_call, hrl]
  refine ⟨by simp, by simp, ?_, ?_⟩
  · simp only []
    simp [payloadSegments, List.filterMap_cons]
  · simp only []
    simp

/-- Witness for C2's amended theorem at a concrete input. -/
theorem C2_amended_witness :
    (websocket_call "agent-1" demoTime true (fun n => n == 1)
        [⟨[1], [], []⟩]).aborted = true ∧
    Action.setFlag ∉ (websocket_call "agent-1" demoTime true (fun n => n == 1)
        [⟨[1], [], []⟩]).trace := by
  have h := C2_amended_write_failure_aborts_relay "agent-1" demoTime [1] []
  exact ⟨h.1, h.2.2.2⟩

/-- C3 is false as stated: in a session whose recording-file `open`
fails, the handler does abort, but the agent thread was already started
on line 111, before the `open` on line 114 — and a started agent thread
performs its `connection.start` handshake regardless, so an upstream
agent connection is established. -/
theorem C3_counterexample :
    (websocket_call "agent-1" demoTime false (fun _ => false) demoIts).aborted = true ∧
    Action.startAgentThread
      ∈ (websocket_call "agent-1" demoTime false (fun _ => false) demoIts).trace ∧
    (deepgram_agent_thread true [] none).1.count (AgentAction.connectionStart true)
      = 1 := by
  decide

/-- C3 (amended): if opening the recording file fails, the relay loop
never runs — the handler's only action is having started the agent
thread, nothing is recorded, and the termination flag is not set — but
because the agent thread is started before the `open`, it still performs
its upstream handshake (`connection.start` appears in its trace whatever
the handshake outcome). -/
theorem C3_amended_open_failure_after_thread_start (aid : String) (t : UtcTime)
    (fail : Nat → Bool) (its : List Iteration) (hk : Bool)
    (polls : List (Option (List Nat))) (raiseAt : Option Nat) :
    (websocket_call aid t false fail its).trace = [Action.startAgentThread] ∧
    (websocket_call aid t false fail its).aborted = true ∧
    Action.setFlag ∉ (websocket_call aid t false fail its).trace ∧
    AgentAction.connectionStart hk ∈ (deepgram_agent_thread hk polls raiseAt).1 := by
  refine ⟨by simp [websocket_call], by simp [websocket_call], by simp [websocket_call], ?_⟩
  rw [deepgram_agent_thread]
  cases hk with
  | false => simp
  | true =>
    rcases hs : agentSendLoop raiseAt 0 polls with ⟨as, r⟩
    cases r <;> simp

/-- Witness for C3's amended theorem at a concrete input. -/
theorem C3_amended_witness :
    (websocket_call "agent-1" demoTime false (fun _ => false) demoIts).trace
      = [Action.startAgentThread] ∧
    AgentAction.connectionStart true ∈ (deepgram_agent_thread true [] none).1 := by
  have h := C3_amended_open_failure_after_thread_start "agent-1" demoTime
    (fun _ => false) demoIts true [] none
  exact ⟨h.1, h.2.2.2⟩

/-- C9 is false as stated: a session in which no conversation event is
ever drained leaves only the conversation audio file on disk — the
transcript file is created lazily by the first append (line 133) and so
never comes to exist. -/
theorem C9_counterexample :
    filesCreated (websocket_call "agent-1" demoTime true (fun _ => false)
        [{ clientFrame := [1], agentFrames := [], events := [] }])
      = [conversation_audio_file "20261012000000"] ∧
    transcript_file "20261012000000"
      ∉ filesCreated (websocket_call "agent-1" demoTime true (fun _ => false)
        [{ clientFrame := [1], agentFrames := [], events := [] }]) := by
  decide

/-- C9 (amended): after a session ends, `conversation_<sessionid>.wav`
always persists, where the session id is the acceptance time formatted at
second resolution (`%Y%m%d%H%M%S`); `transcript_<sessionid>.txt`
persists if and only if at least one conversation event was drained
during the session. -/
theorem C9_amended_wav_always_transcript_iff_events (aid : String) (t : UtcTime)
    (fail : Nat → Bool) (its : List Iteration) (hf : ∀ n, fail n = false) :
    (websocket_call aid t true fail its).convFileName
        = "conversation_" ++ strftimeYmdHMS t ++ ".wav" ∧
    (websocket_call aid t true fail its).transcriptName
        = "transcript_" ++ strftimeYmdHMS t ++ ".txt" ∧
    filesCreated (websocket_call aid t true fail its)
      = ["conversation_" ++ strftimeYmdHMS t ++ ".wav"]
        ++ (if eventsOf its = [] then []
            else ["transcript_" ++ strftimeYmdHMS t ++ ".txt"]) := by
  rw [websocket_call_noFail aid t fail its hf]
  refine ⟨rfl, rfl, ?_⟩
  rw [filesCreated]
  have hmem : Action.openConvFile
      ∈ (Action.startAgentThread :: Action.openConvFile ::
          Action.writeWavHeader wavHeaderBytes ::
          (cmap iterTrace its ++ [Action.setFlag, Action.closeConvFile])) := by
    simp
  have happ : appendedEvents (Action.startAgentThread :: Action.openConvFile ::
        Action.writeWavHeader wavHeaderBytes ::
        (cmap iterTrace its ++ [Action.setFlag, Action.closeConvFile]))
      = eventsOf its := by
    rw [show (Action.startAgentThread :: Action.openConvFile ::
          Action.writeWavHeader wavHeaderBytes ::
          (cmap iterTrace its ++ [Action.setFlag, Action.closeConvFile]))
        = [Action.startAgentThread, Action.openConvFile,
            Action.writeWavHeader wavHeaderBytes]
          ++ (cmap iterTrace its ++ [Action.setFlag, Action.closeConvFile]) from rfl,
        appendedEvents_append, appendedEvents_append, appendedEvents_cmap_iterTrace]
    simp [appendedEvents]
  rw [if_pos hmem, happ]
  by_cases he : eventsOf its = []
  · rw [if_pos he, if_neg (by simp [he])]
    rfl
  · rw [if_neg he, if_pos he]
    rfl

/-- Witness for C9's amended theorem: a session that drained one event
leaves both files. -/
theorem C9_amended_witness :
    filesCreated (websocket_call "agent-1" demoTime true (fun _ => false) demoIts)
      = ["conversation_20261012000000.wav", "transcript_20261012000000.txt"] := by
  have h := C9_amended_wav_always_transcript_iff_events "agent-1" demoTime
    (fun _ => false) demoIts (fun _ => rfl)
  rw [h.2.2]
  rfl

/-- C7: the per-session termination flag is monotonic and its set
operation is idempotent — `set` twice equals `set` once, any positive
number of (possibly racing) `set` calls equals one, the flag once set is
never cleared by any action of the session (the code contains no
`clear`), and there is exactly one shutdown sequence: whatever the
failure schedule and handshake outcome, the handler closes the
conversation file at most once and sets the flag at most once, and the
agent thread finishes its connection at most once and sets the flag at
most once. -/
theorem C7_flag_monotonic_idempotent_single_shutdown :
    (∀ e : ThreadingEvent, ThreadingEvent.set (ThreadingEvent.set e)
        = ThreadingEvent.set e) ∧
    (∀ (e : ThreadingEvent) (n : Nat), 0 < n →
        ThreadingEvent.set^[n] e = ThreadingEvent.set e) ∧
    (∀ (tr₁ tr₂ : List Action) (e : ThreadingEvent),
        (tr₁.foldl applyAction e).is_set = true →
        ((tr₁ ++ tr₂).foldl applyAction e).is_set = true) ∧
    (∀ (aid : String) (t : UtcTime) (openOk : Bool) (fail : Nat → Bool)
        (its : List Iteration),
        (websocket_call aid t openOk fail its).trace.count Action.closeConvFile ≤ 1 ∧
        (websocket_call aid t openOk fail its).trace.count Action.setFlag ≤ 1) ∧
    (∀ (hk : Bool) (polls : List (Option (List Nat))) (raiseAt : Option Nat),
        (deepgram_agent_thread hk polls raiseAt).1.count AgentAction.finishConn ≤ 1 ∧
        (deepgram_agent_thread hk polls raiseAt).1.count AgentAction.setFlagAgent ≤ 1) := by
  have hset : ∀ e : ThreadingEvent, ThreadingEvent.set (ThreadingEvent.set e)
      = ThreadingEvent.set e := fun _ => rfl
  have hkeep : ∀ (e : ThreadingEvent) (a : Action),
      e.is_set = true → (applyAction e a).is_set = true := by
    intro e a he
    cases a <;> simp [applyAction, ThreadingEvent.set, ThreadingEvent.is_set] <;>
      exact he
  have aux : ∀ (k : Nat) (e' : ThreadingEvent),
      ThreadingEvent.set^[k] (ThreadingEvent.set e') = ThreadingEvent.set e' := by
    intro k
    induction k with
    | zero => intro e'; rfl
    | succ k ih =>
      intro e'
      rw [Function.iterate_succ_apply, hset]
      exact ih e'
  refine ⟨hset, ?_, ?_, ?_, ?_⟩
  · intro e n hn
    match n, hn with
    | m + 1, _ =>
      rw [Function.iterate_succ_apply]
      exact aux m e
  · intro tr₁ tr₂ e h
    rw [List.foldl_append]
    generalize List.foldl applyAction e tr₁ = E at h ⊢
    revert h
    induction tr₂ generalizing E with
    | nil => intro h; exact h
    | cons a rest ih =>
      intro h
      rw [List.foldl_cons]
      exact ih (applyAction E a) (hkeep E a h)
  · intro aid t openOk fail its
    rw [websocket_call]
    cases openOk with
    | false => exact ⟨by simp, by simp⟩
    | true =>
      by_cases h0 : fail 0
      · rw [if_neg (by simp), if_pos h0]
        exact ⟨by simp, by simp⟩
      · rcases hr : relayLoop fail 1 its with ⟨as, n', ab⟩
        have hc : as.count Action.closeConvFile = 0 := by
          have := relayLoop_count_eq_zero fail 1 its Action.closeConvFile rfl
          rw [hr] at this
          exact this
        have hs : as.count Action.setFlag = 0 := by
          have := relayLoop_count_eq_zero fail 1 its Action.setFlag rfl
          rw [hr] at this
          exact this
        rw [if_neg (by simp), if_neg h0]
        try simp only []
        cases ab with
        | true =>
          rw [if_pos rfl]
          constructor <;> simp [List.count_append, List.count_cons, hc, hs]
        | false =>
          rw [if_neg (by simp)]
          constructor <;> simp [List.count_append, List.count_cons, hc, hs]
  · intro hk polls raiseAt
    rw [deepgram_agent_thread]
    cases hk with
    | false => exact ⟨by simp, by simp⟩
    | true =>
      rcases hs : agentSendLoop raiseAt 0 polls with ⟨as, r⟩
      have hcf : as.count AgentAction.finishConn = 0 := by
        rw [List.count_eq_zero]
        intro hmem
        rcases agentSendLoop_mem raiseAt 0 polls AgentAction.finishConn
            (by rw [hs]; exact hmem) with ⟨b, hb⟩ | hb <;> cases hb
      have hcs : as.count AgentAction.setFlagAgent = 0 := by
        rw [List.count_eq_zero]
        intro hmem
        rcases agentSendLoop_mem raiseAt 0 polls AgentAction.setFlagAgent
            (by rw [hs]; exact hmem) with ⟨b, hb⟩ | hb <;> cases hb
      rw [if_neg (by simp)]
      try simp only []
      cases r with
      | true =>
        rw [if_pos rfl]
        constructor <;> simp [List.count_append, List.count_cons, hcf, hcs]
      | false =>
        rw [if_neg (by simp)]
        constructor <;> simp [List.count_append, List.count_cons, hcf, hcs]

/-- Witness for C7: the hypothesis-bearing parts instantiated at concrete
values — two racing `set` calls equal one, and a trace that set the flag
keeps it set through the rest of the shutdown. -/
theorem C7_witness :
    ThreadingEvent.set^[2] ⟨false⟩ = ThreadingEvent.set ⟨false⟩ ∧
    (([Action.setFlag] ++ [Action.closeConvFile]).foldl applyAction
        ⟨false⟩).is_set = true ∧
    (websocket_call "agent-1" demoTime true (fun _ => false)
        demoIts).trace.count Action.closeConvFile ≤ 1 := by
  have h := C7_flag_monotonic_idempotent_single_shutdown
  exact ⟨h.2.1 ⟨false⟩ 2 (by decide),
         h.2.2.1 [Action.setFlag] [Action.closeConvFile] ⟨false⟩ (by decide),
         (h.2.2.2.1 "agent-1" demoTime true (fun _ => false) demoIts).1⟩

theorem toBytes?_length (v w : Nat) (b : List Nat) (h : toBytes? v w = some b) :
    b.length = w := by
  rw [toBytes?] at h
  split at h
  · cases h; simp
  · cases h

set_option maxRecDepth 10000 in
/-- C4 is false as stated: at the parameters actually used (24000 Hz,
16 bits, mono) the header's "remaining size" field (bytes 4..8) is 36,
not zero; only the "data size" field (bytes 40..44) is zero. -/
theorem C4_counterexample :
    (create_wav_header 24000 16 1).map (fun h => (h.drop 4).take 4)
      ≠ some [0, 0, 0, 0] ∧
    (create_wav_header 24000 16 1).map (fun h => (h.drop 4).take 4)
      = some [36, 0, 0, 0] ∧
    (create_wav_header 24000 16 1).map (fun h => (h.drop 40).take 4)
      = some [0, 0, 0, 0] := by
  decide

/-- C4 (amended): for every sample rate, bit depth and channel count
satisfying the stated constraints for which the header computation
succeeds, the declared "remaining size" field (bytes 4..8) is the
constant 36 — the header-only RIFF size, little-endian — and the "data
size" field (bytes 40..44) is zero. -/
theorem C4_amended_remaining_36_data_0 (sr bps ch : Nat) (h : List Nat)
    (hbps : 8 ∣ bps) (hch : 1 ≤ ch) (hsr : 0 < sr)
    (hh : create_wav_header sr bps ch = some h) :
    (h.drop 4).take 4 = [36, 0, 0, 0] ∧ (h.drop 40).take 4 = [0, 0, 0, 0] := by
  rw [create_wav_header] at hh
  rw [show toBytes? 36 4 = some [36, 0, 0, 0] from by decide] at hh
  rw [show toBytes? 16 4 = some [16, 0, 0, 0] from by decide] at hh
  rw [show toBytes? 1 2 = some [1, 0] from by decide] at hh
  rw [show toBytes? 0 4 = some [0, 0, 0, 0] from by decide] at hh
  simp only [Option.bind_eq_bind, Option.some_bind] at hh
  rcases h1 : toBytes? ch 2 with _ | bch
  · rw [h1] at hh; simp at hh
  rw [h1] at hh
  simp only [Option.some_bind] at hh
  rcases h2 : toBytes? sr 4 with _ | bsr
  · rw [h2] at hh; simp at hh
  rw [h2] at hh
  simp only [Option.some_bind] at hh
  rcases h3 : toBytes? (sr * ch * (bps / 8)) 4 with _ | bbr
  · rw [h3] at hh; simp at hh
  rw [h3] at hh
  simp only [Option.some_bind] at hh
  rcases h4 : toBytes? (ch * (bps / 8)) 2 with _ | bba
  · rw [h4] at hh; simp at hh
  rw [h4] at hh
  simp only [Option.some_bind] at hh
  rcases h5 : toBytes? bps 2 with _ | bbps
  · rw [h5] at hh; simp at hh
  rw [h5] at hh
  simp only [Option.some_bind, Option.pure_def, Option.some.injEq] at hh
  have lch : bch.length = 2 := toBytes?_length _ _ _ h1
  have lsr : bsr.length = 4 := toBytes?_length _ _ _ h2
  have lbr : bbr.length = 4 := toBytes?_length _ _ _ h3
  have lba : bba.length = 2 := toBytes?_length _ _ _ h4
  have lbps : bbps.length = 2 := toBytes?_length _ _ _ h5
  subst hh
  set s1 := setSlice (List.replicate 44 0) 0 [0x52, 0x49, 0x46, 0x46] with hs1
  set s2 := setSlice s1 4 [36, 0, 0, 0] with hs2
  set s3 := setSlice s2 8 [0x57, 0x41, 0x56, 0x45] with hs3
  set s4 := setSlice s3 12 [0x66, 0x6d, 0x74, 0x20] with hs4
  set s5 := setSlice s4 16 [16, 0, 0, 0] with hs5
  set s6 := setSlice s5 20 [1, 0] with hs6
  set s7 := setSlice s6 22 bch with hs7
  set s8 := setSlice s7 24 bsr with hs8
  set s9 := setSlice s8 28 bbr with hs9
  set s10 := setSlice s9 32 bba with hs10
  set s11 := setSlice s10 34 bbps with hs11
  set s12 := setSlice s11 36 [0x64, 0x61, 0x74, 0x61] with hs12
  have l1 : s1.length = 44 := by
    rw [hs1, setSlice_length _ _ _ (by simp)]; simp
  have l2 : s2.length = 44 := by
    rw [hs2, setSlice_length _ _ _ (by simp [l1])]; exact l1
  have l3 : s3.length = 44 := by
    rw [hs3, setSlice_length _ _ _ (by simp [l2])]; exact l2
  have l4 : s4.length = 44 := by
    rw [hs4, setSlice_length _ _ _ (by simp [l3])]; exact l3
  have l5 : s5.length = 44 := by
    rw [hs5, setSlice_length _ _ _ (by simp [l4])]; exact l4
  have l6 : s6.length = 44 := by
    rw [hs6, setSlice_length _ _ _ (by simp [l5])]; exact l5
  have l7 : s7.length = 44 := by
    rw [hs7, setSlice_length _ _ _ (by simp [l6, lch])]; exact l6
  have l8 : s8.length = 44 := by
    rw [hs8, setSlice_length _ _ _ (by simp [l7, lsr])]; exact l7
  have l9 : s9.length = 44 := by
    rw [hs9, setSlice_length _ _ _ (by simp [l8, lbr])]; exact l8
  have l10 : s10.length = 44 := by
    rw [hs10, setSlice_length _ _ _ (by simp [l9, lba])]; exact l9
  have l11 : s11.length = 44 := by
    rw [hs11, setSlice_length _ _ _ (by simp [l10, lbps])]; exact l10
  have l12 : s12.length = 44 := by
    rw [hs12, setSlice_length _ _ _ (by simp [l11])]; exact l11
  constructor
  · have e13 : ((setSlice s12 40 [0, 0, 0, 0]).drop 4).take 4 = (s12.drop 4).take 4 :=
      slice_setSlice_lower _ _ _ _ _ (by omega) (by simp [l12])
    have e12 : (s12.drop 4).take 4 = (s11.drop 4).take 4 := by
      rw [hs12]; exact slice_setSlice_lower _ _ _ _ _ (by omega) (by simp [l11])
    have e11 : (s11.drop 4).take 4 = (s10.drop 4).take 4 := by
      rw [hs11]; exact slice_setSlice_lower _ _ _ _ _ (by omega) (by simp [l10])
    have e10 : (s10.drop 4).take 4 = (s9.drop 4).take 4 := by
      rw [hs10]; exact slice_setSlice_lower _ _ _ _ _ (by omega) (by simp [l9])
    have e9 : (s9.drop 4).take 4 = (s8.drop 4).take 4 := by
      rw [hs9]; exact slice_setSlice_lower _ _ _ _ _ (by omega) (by simp [l8])
    have e8 : (s8.drop 4).take 4 = (s7.drop 4).take 4 := by
      rw [hs8]; exact slice_setSlice_lower _ _ _ _ _ (by omega) (by simp [l7])
    have e7 : (s7.drop 4).take 4 = (s6.drop 4).take 4 := by
      rw [hs7]; exact slice_setSlice_lower _ _ _ _ _ (by omega) (by simp [l6])
    have e6 : (s6.drop 4).take 4 = (s5.drop 4).take 4 := by
      rw [hs6]; exact slice_setSlice_lower _ _ _ _ _ (by omega) (by simp [l5])
    have e5 : (s5.drop 4).take 4 = (s4.drop 4).take 4 := by
      rw [hs5]; exact slice_setSlice_lower _ _ _ _ _ (by omega) (by simp [l4])
    have e4 : (s4.drop 4).take 4 = (s3.drop 4).take 4 := by
      rw [hs4]; exact slice_setSlice_lower _ _ _ _ _ (by omega) (by simp [l3])
    have e3 : (s3.drop 4).take 4 = (s2.drop 4).take 4 := by
      rw [hs3]; exact slice_setSlice_lower _ _ _ _ _ (by omega) (by simp [l2])
    have e2 : (s2.drop 4).take 4 = [36, 0, 0, 0] := by
      rw [hs2, setSlice_drop _ _ _ (by simp [l1])]
      exact List.take_left' (by rfl)
    rw [e13, e12, e11, e10, e9, e8, e7, e6, e5, e4, e3, e2]
  · rw [setSlice_drop _ _ _ (by simp [l12])]
    exact List.take_left' (by rfl)

set_option maxRecDepth 10000 in
/-- Witness for C4's amended theorem at the parameters the relay uses. -/
theorem C4_amended_witness :
    (wavHeaderBytes.drop 4).take 4 = [36, 0, 0, 0] ∧
    (wavHeaderBytes.drop 40).take 4 = [0, 0, 0, 0] :=
  C4_amended_remaining_36_data_0 24000 16 1 wavHeaderBytes
    (by decide) (by decide) (by decide) (by decide)

end DeepgramRelay
